/-
Verification of the launcher core (version resolution, rule evaluation,
folder model, concurrent downloader, launch-argument assembly) against its
natural-language specification.

The Rust sources are shallowly embedded: pure functions become Lean
functions; filesystem reads become explicit maps from version ids to file
contents; panics (unwrap, panic!) become Option/None or dedicated panic
constructors; the regex engine and the SHA-1 hasher are oracles passed as
parameters; the while-loop walking the inheritsFrom chain is given explicit
fuel so that its divergence on cyclic inputs is observable.
-/
import Mathlib

namespace MglCore

/-- JSON values, mirroring serde_json::Value.  Numbers are modelled as
integers, which covers every field the launcher inspects. -/
inductive Json where
  | null
  | bool (b : Bool)
  | num (n : Int)
  | str (s : String)
  | arr (elems : List Json)
  | obj (fields : List (String × Json))

/-- serde_json's Index impl for string keys: indexing into a non-object or a
missing key yields Value::Null. -/
def Json.index (j : Json) (key : String) : Json :=
  match j with
  | .obj fields =>
    match fields.find? (fun f => f.1 == key) with
    | some f => f.2
    | none => .null
  | _ => .null

/-- Value::as_str. -/
def Json.as_str : Json → Option String
  | .str s => some s
  | _ => none

/-- Value::as_array. -/
def Json.as_array : Json → Option (List Json)
  | .arr xs => some xs
  | _ => none

/-- Value::is_string. -/
def Json.is_string : Json → Bool
  | .str _ => true
  | _ => false

/-- Value::is_object. -/
def Json.is_object : Json → Bool
  | .obj _ => true
  | _ => false

/-- Value::is_array. -/
def Json.is_array : Json → Bool
  | .arr _ => true
  | _ => false

/-- OS family, as matched on by the launch module (`platform.os_type`).
Modelled from the spec: the `OsType` enum itself is declared in a crate file
that is not part of the sources; §4.A normalises the OS name to
windows / linux / osx / unknown. -/
inductive OsType where
  | windows
  | linux
  | osx
  | unknown
deriving DecidableEq, Repr

/-- PlatformInfo from core/mod.rs: arch, name and version strings probed from
the OS.  The extra `os_type` field is read by `to_async_command`; its
declaration lives outside the sources and is modelled from the spec's §4.A
OS-family normalisation. -/
structure PlatformInfo where
  arch : String
  name : String
  version : String
  os_type : OsType
deriving DecidableEq, Repr

/-- A compiled-regex oracle: `compile pat` is `none` when `Regex::new(pat)`
fails (the source unwraps, i.e. panics, in that case) and otherwise the
match predicate used by `Regex::is_match`. -/
abbrev RegexOracle := String → Option (String → Bool)

/-- One iteration of the rule loop in check_allowed (core/version.rs).
`none` models a panic: either `rule["action"].as_str().unwrap()` on a rule
without a string action, or `Regex::new(version).unwrap()` on an invalid
pattern.  Otherwise it returns the updated verdict. -/
def check_allowed_step (compile : RegexOracle) (platform : PlatformInfo)
    (allow : Bool) (rule : Json) : Option Bool :=
  match (rule.index "action").as_str with
  | none => none
  | some a =>
    let action := a == "allow"
    let os := rule.index "os"
    if !os.is_object then
      some action
    else if !(os.index "name").is_string then
      some action
    else if platform.name != ((os.index "name").as_str).getD "" then
      some allow
    else if !(os.index "version").is_string then
      some action
    else
      match compile (((os.index "version").as_str).getD "") with
      | none => none
      | some is_match =>
        if is_match platform.version then some action else some allow

/-- check_allowed from core/version.rs: empty rule list is allowed; otherwise
the verdict starts at disallow and every rule is folded over it in order.
`none` models a panic inside the loop. -/
def check_allowed (compile : RegexOracle) (rules : List Json)
    (platform : PlatformInfo) : Option Bool :=
  if rules.isEmpty then
    some true
  else
    rules.foldlM (check_allowed_step compile platform) false

/-- Rust's Path::join / PathBuf::push on Unix-style paths modelled on
strings: an absolute right side replaces the base, otherwise a single
separator is inserted unless the base already ends in one or is empty. -/
def pathJoin (base child : String) : String :=
  if child.data.head? = some '/' then child
  else if base.data = [] then child
  else if base.data.getLast? = some '/' then base ++ child
  else base ++ "/" ++ child

/-- MinecraftLocation from core/folder.rs: all derived folders of a game
root, computed eagerly by `new`. -/
structure MinecraftLocation where
  root : String
  libraries : String
  assets : String
  resourcepacks : String
  mods : String
  logs : String
  latest_log : String
  saves : String
  versions : String
  options : String
  screenshots : String
deriving DecidableEq, Repr

/-- MinecraftLocation::new.  Field for field the joins performed by the
source, including `saves: path.join("resourcepacks")`. -/
def MinecraftLocation.new (root : String) : MinecraftLocation where
  root := root
  assets := pathJoin root "assets"
  libraries := pathJoin root "libraries"
  resourcepacks := pathJoin root "resourcepacks"
  mods := pathJoin root "mods"
  logs := pathJoin root "logs"
  latest_log := pathJoin (pathJoin root "logs") "latest.log"
  saves := pathJoin root "resourcepacks"
  versions := pathJoin root "versions"
  options := pathJoin root "options.txt"
  screenshots := pathJoin root "screenshots"

/-- MinecraftLocation::get_version_root. -/
def MinecraftLocation.get_version_root (m : MinecraftLocation)
    (version : String) : String :=
  pathJoin m.versions version

/-- MinecraftLocation::get_version_json. -/
def MinecraftLocation.get_version_json (m : MinecraftLocation)
    (version : String) : String :=
  pathJoin (m.get_version_root version) (version ++ ".json")

/-- MinecraftLocation::get_library_by_path. -/
def MinecraftLocation.get_library_by_path (m : MinecraftLocation)
    (library_path : String) : String :=
  pathJoin m.libraries library_path

/-- Download entry of a version json (core/version.rs `Download`). -/
structure DownloadInfo where
  sha1 : String
  size : Nat
  url : String
deriving DecidableEq, Repr

/-- AssetIndex of a version json. -/
structure AssetIndex where
  size : Nat
  url : String
  id : String
  total_size : Nat
deriving DecidableEq, Repr

/-- Logging section entry. -/
structure Logging where
  file : DownloadInfo
  argument : String
  type : String
deriving DecidableEq, Repr

/-- JavaVersion of a version json. -/
structure JavaVersion where
  component : String
  major_version : Int
deriving DecidableEq, Repr

/-- The structured `arguments` object: optional token arrays for game and
jvm.  Tokens are raw JSON values, as in the source. -/
structure Arguments where
  game : Option (List Json)
  jvm : Option (List Json)

/-- The raw version record of core/version.rs, deserialised from
versions/<id>/<id>.json.  HashMaps become association lists. -/
structure Version where
  id : String
  time : Option String := none
  type : Option String := none
  release_time : Option String := none
  inherits_from : Option String := none
  minimum_launcher_version : Option Int := none
  minecraft_arguments : Option String := none
  arguments : Option Arguments := none
  main_class : Option String := none
  libraries : Option (List Json) := none
  jar : Option String := none
  asset_index : Option AssetIndex := none
  assets : Option String := none
  downloads : Option (List (String × DownloadInfo)) := none
  client : Option String := none
  server : Option String := none
  logging : Option (List (String × Logging)) := none
  java_version : Option JavaVersion := none
  client_version : Option String := none

/-- A resolved library artifact. -/
structure Artifact where
  sha1 : String
  size : Nat
  url : String
  path : String
deriving DecidableEq, Repr

/-- ResolvedArguments: the argument resolver joins each surviving token into
one space-separated string per section. -/
structure ResolvedArguments where
  game : String
  jvm : String
deriving DecidableEq, Repr

/-- ResolvedVersion from core/version.rs. -/
structure ResolvedVersion where
  id : String
  arguments : Option ResolvedArguments
  main_class : String
  asset_index : Option AssetIndex
  assets : String
  downloads : Option (List (String × DownloadInfo))
  libraries : List Artifact
  minimum_launcher_version : Int
  release_time : String
  time : String
  version_type : String
  logging : Option (List (String × Logging))
  java_version : JavaVersion
  minecraft_version : String
  inheritances : List String
  path_chain : List String
deriving DecidableEq, Repr

/-- serde_json::from_value::<Artifact>: succeeds exactly on objects carrying
string sha1/url/path and a non-negative numeric size; `none` models the
source's unwrap panic. -/
def artifact_from_value (j : Json) : Option Artifact :=
  match (j.index "sha1").as_str, (j.index "url").as_str,
      (j.index "path").as_str, j.index "size" with
  | some sha1, some url, some path, .num n =>
    if n < 0 then none else some ⟨sha1, n.toNat, url, path⟩
  | _, _, _, _ => none

/-- The inner loop of resolve_arguments over a `value` array: every element
must be a string (`value.as_str().unwrap()` panics otherwise) and is pushed
with a trailing space. -/
def value_append_step (acc : String) (value : Json) : Option String :=
  match value.as_str with
  | none => none
  | some s => some (acc ++ s ++ " ")

/-- One iteration of the resolve_arguments loop over the raw token list. -/
def resolve_arguments_step (compile : RegexOracle) (platform : PlatformInfo)
    (result : String) (argument : Json) : Option String :=
  if argument.is_string then
    some (result ++ (argument.as_str.getD "") ++ " ")
  else if !argument.is_object then
    some result
  else
    let kept :=
      match (argument.index "rules").as_array with
      | some rules => check_allowed compile rules platform
      | none => some true
    match kept with
    | none => none
    | some false => some result
    | some true =>
      if (argument.index "value").is_string then
        some (result ++ (((argument.index "value").as_str).getD "") ++ " ")
      else if (argument.index "value").is_array then
        (((argument.index "value").as_array).getD []).foldlM
          value_append_step result
      else
        some result

/-- resolve_arguments from core/version.rs: fold the raw token list into one
string, appending a trailing space after every kept token; object tokens are
gated by check_allowed on their rules; `none` models a panic (inside
check_allowed, or `value.as_str().unwrap()` on a non-string array element). -/
def resolve_arguments (compile : RegexOracle) (platform : PlatformInfo)
    (arguments : List Json) : Option String :=
  arguments.foldlM (resolve_arguments_step compile platform) ""

/-- One iteration of the resolve_libraries loop over the raw entries. -/
def resolve_libraries_step (compile : RegexOracle) (platform : PlatformInfo)
    (result : List Artifact) (library : Json) : Option (List Artifact) :=
  let kept :=
    match (library.index "rules").as_array with
    | some rules => check_allowed compile rules platform
    | none => some true
  match kept with
  | none => none
  | some false => some result
  | some true =>
    if ((library.index "downloads").index "artifact").is_object then
      match artifact_from_value ((library.index "downloads").index "artifact") with
      | none => none
      | some artifact => some (result ++ [artifact])
    else
      match (library.index "name").as_str with
      | none => some result
      | some name =>
        let parts := name.splitOn ":"
        if parts.length != 3 then some result
        else
          let package := (parts.get! 0).replace "." "/"
          let version := parts.get! 2
          let lib_name := parts.get! 1
          let url :=
            match (library.index "url").as_str with
            | some u => u
            | none => "http://files.minecraftforge.net/maven/"
          let path :=
            package ++ "/" ++ lib_name ++ "/" ++ version ++ "/" ++
              lib_name ++ "-" ++ version ++ ".jar"
          some (result ++ [⟨"", 0, url ++ path, path⟩])

/-- resolve_libraries from core/version.rs: per raw entry, apply the rules,
then either deserialise downloads.artifact or fall back to parsing the Maven
coordinate; `none` models a panic. -/
def resolve_libraries (compile : RegexOracle) (platform : PlatformInfo)
    (libraries : List Json) : Option (List Artifact) :=
  libraries.foldlM (resolve_libraries_step compile platform) []

/-- Outcome of reading versions/<name>/<name>.json: the read itself can
fail (missing or unreadable file), the deserialisation can fail, or a raw
version record is produced. -/
inductive FileRead where
  | missing
  | malformed
  | ok (v : Version)

/-- The versions folder on disk, keyed by version name: the content of
versions/<name>/<name>.json. -/
abbrev VersionsFolder := String → FileRead

/-- Reasons the source process aborts inside Version::parse. -/
inductive Panic where
  /-- read_to_string(path).unwrap() on a missing/unreadable parent json. -/
  | ioUnwrap
  /-- serde_json::from_str(..).unwrap() on a malformed parent json. -/
  | jsonUnwrap
  /-- The explicit `panic!("Bad Version JSON")` invariant check. -/
  | badVersionJson
  /-- Unwraps inside check_allowed / resolve_arguments / resolve_libraries. -/
  | resolveUnwrap
deriving DecidableEq, Repr

/-- Result of the `while let Some(_) = inherits_from` loop: the accumulated
version chain plus inheritances and path_chain, a panic on an unreadable or
malformed parent, or fuel exhaustion (the source loop has no cycle check, so
on a cyclic chain it never exits). -/
inductive LoadResult where
  | ok (versions : List Version) (inheritances : List String)
      (path_chain : List String)
  | panicked (reason : Panic)
  | fuelOut

/-- The parent-loading loop of Version::parse, with explicit fuel standing
for the number of iterations executed.  Each iteration records the parent id
and path, reads and deserialises the parent (unwrap panics on failure), and
follows its inheritsFrom. -/
def load_inheritance (folder : VersionsFolder) (minecraft : MinecraftLocation) :
    Option String → List Version → List String → List String → Nat →
    LoadResult
  | none, versions, inheritances, path_chain, _ =>
    .ok versions inheritances path_chain
  | some _, _, _, _, 0 => .fuelOut
  | some parent, versions, inheritances, path_chain, fuel + 1 =>
    let path := pathJoin (pathJoin minecraft.versions parent)
      (parent ++ ".json")
    match folder parent with
    | .missing => .panicked .ioUnwrap
    | .malformed => .panicked .jsonUnwrap
    | .ok v =>
      load_inheritance folder minecraft v.inherits_from (versions ++ [v])
        (inheritances ++ [parent]) (path_chain ++ [path]) fuel

/-- The accumulator variables of the merge loop in Version::parse, with
their initial values from the source. -/
structure MergedFields where
  assets : String := ""
  minimum_launcher_version : Int := 0
  game_args : List Json := []
  jvm_args : List Json := []
  release_time : String := ""
  time : String := ""
  version_type : String := ""
  logging : List (String × Logging) := []
  main_class : String := ""
  assets_index : AssetIndex := ⟨0, "", "", 0⟩
  java_version : JavaVersion := ⟨"jre-legacy", 8⟩
  libraries_raw : List Json := []
  downloads : List (String × DownloadInfo) := []

/-- The default AssetIndex the merge starts from; the invariant check
compares the merged value against it. -/
def default_asset_index : AssetIndex := ⟨0, "", "", 0⟩

/-- The jre-legacy/8 JavaVersion default. -/
def default_java_version : JavaVersion := ⟨"jre-legacy", 8⟩

/-- The game tokens a single raw record contributes to the merge. -/
def version_game_args (v : Version) : List Json :=
  match v.arguments with
  | some a => a.game.getD []
  | none => []

/-- The jvm tokens a single raw record contributes to the merge. -/
def version_jvm_args (v : Version) : List Json :=
  match v.arguments with
  | some a => a.jvm.getD []
  | none => []

/-- The raw library entries a single raw record contributes to the merge. -/
def version_libraries_raw (v : Version) : List Json :=
  v.libraries.getD []

/-- One iteration of the merge loop body for the popped version `v`. -/
def merge_step (m : MergedFields) (v : Version) : MergedFields where
  minimum_launcher_version :=
    max (v.minimum_launcher_version.getD 0) m.minimum_launcher_version
  game_args := m.game_args ++ version_game_args v
  jvm_args := m.jvm_args ++ version_jvm_args v
  release_time := v.release_time.getD m.release_time
  time := v.time.getD m.time
  logging := v.logging.getD m.logging
  assets := v.assets.getD m.assets
  version_type := v.type.getD m.version_type
  main_class := v.main_class.getD m.main_class
  assets_index := v.asset_index.getD m.assets_index
  java_version := v.java_version.getD m.java_version
  libraries_raw := m.libraries_raw ++ version_libraries_raw v
  downloads := v.downloads.getD m.downloads

/-- The merge loop: `versions` holds the chain child-first (as pushed by the
loading loop); Vec::pop processes it from the end, i.e. root-first. -/
def merge_versions (versions : List Version) : MergedFields :=
  versions.reverse.foldl merge_step {}

/-- Result of Version::parse: a resolved version, a process abort, or a
never-terminating inheritance walk (fuel exhausted at every fuel). -/
inductive ParseResult where
  | ok (r : ResolvedVersion)
  | panicked (reason : Panic)
  | fuelOut
deriving DecidableEq, Repr

/-- Projection to the resolved version, when parse returned one. -/
def ParseResult.resolved : ParseResult → Option ResolvedVersion
  | .ok r => some r
  | _ => none

/-- Version::parse from core/version.rs: walk the inheritsFrom chain, merge
root-first, enforce the Bad Version JSON invariant check, then build the
ResolvedVersion.  Note that the output takes asset_index, assets, downloads,
logging and java_version from `self` (the input record), not from the merged
accumulators. -/
def Version.parse (self : Version) (minecraft : MinecraftLocation)
    (folder : VersionsFolder) (compile : RegexOracle)
    (platform : PlatformInfo) (fuel : Nat) : ParseResult :=
  match load_inheritance folder minecraft self.inherits_from [self] [] []
      fuel with
  | .fuelOut => .fuelOut
  | .panicked reason => .panicked reason
  | .ok versions inheritances path_chain =>
    let m := merge_versions versions
    if m.main_class = "" ∨ m.assets_index = default_asset_index ∨
        m.downloads.length = 0 then
      .panicked .badVersionJson
    else
      match resolve_arguments compile platform m.game_args,
          resolve_arguments compile platform m.jvm_args,
          resolve_libraries compile platform m.libraries_raw with
      | some game, some jvm, some libs =>
        .ok {
          id := self.id
          arguments := some ⟨game, jvm⟩
          main_class := m.main_class
          asset_index := self.asset_index
          assets := self.assets.getD ""
          downloads := self.downloads
          libraries := libs
          minimum_launcher_version := m.minimum_launcher_version
          release_time := m.release_time
          time := m.time
          version_type := m.version_type
          logging := self.logging
          java_version := self.java_version.getD default_java_version
          minecraft_version := self.client_version.getD self.id
          inheritances := inheritances
          path_chain := path_chain }
      | _, _, _ => .panicked .resolveUnwrap

/-- A download task from utils/download.rs (paths as strings). -/
structure DownloadTask where
  url : String
  file : String
  sha1 : Option String
deriving DecidableEq, Repr

/-- The filesystem visible to the downloader: file contents as byte lists,
`none` when std::fs::metadata fails (file absent). -/
abbrev FileSystem := String → Option (List Nat)

/-- The SHA-1 oracle standing for calculate_sha1_from_read. -/
abbrev HashOracle := List Nat → String

/-- The pre-filter closure of download_files: keep the task when the file is
absent; otherwise the file is opened and hashed unconditionally, the task is
kept when it carries no sha1, and otherwise kept exactly on hash mismatch.
There is no verify-existing switch in the source. -/
def download_filter (hash : HashOracle) (fs : FileSystem)
    (download_task : DownloadTask) : Bool :=
  match fs download_task.file with
  | none => true
  | some data =>
    let file_sha1 := hash data
    match download_task.sha1 with
    | none => true
    | some sha1 => file_sha1 != sha1

/-- Whether the pre-filter invokes calculate_sha1_from_read on the task:
it does so exactly when the file exists, even when the task has no sha1. -/
def download_filter_hashes (fs : FileSystem)
    (download_task : DownloadTask) : Bool :=
  (fs download_task.file).isSome

/-- Modelled from the spec: the pre-filter predicate §4.E step 2 describes,
with its verify_existing switch — if the file does not exist keep; else if
verify_existing is false drop; else if sha1 is absent keep; else drop on
hash match and keep on mismatch.  Used only to compare the specified filter
with the implemented one. -/
def spec_pre_filter_keep (hash : HashOracle) (verify_existing : Bool)
    (file_data : Option (List Nat)) (sha1 : Option String) : Bool :=
  match file_data with
  | none => true
  | some data =>
    if verify_existing = false then false
    else
      match sha1 with
      | none => true
      | some s => hash data != s

/-- Observer callbacks fired by download_files. -/
inductive TaskEvent where
  | start
  | progress (completed total step : Nat)
  | succeed
  | failed
deriving DecidableEq, Repr

/-- What download_files did: the tasks surviving the pre-filter, the URLs it
fetches (one HTTP request per survivor), and the observer events. -/
structure DownloadOutcome where
  survivors : List DownloadTask
  http_requests : List String
  events : List TaskEvent
deriving DecidableEq, Repr

/-- download_files from utils/download.rs: emit start and progress(0,0,1),
pre-filter the tasks, fetch every survivor, emit one progress(_,total,2) per
completion, then succeed once the counter reaches the total.  The completed
counts of the step-2 events are the snapshots seen under the sequential
schedule (the source reads an atomic counter concurrently); with no
survivors the event list is exact, as the stream is empty.  download() itself
unwraps on HTTP/IO errors, so completions cannot fail in this model and the
failed branch (counter short of total) is unreachable. -/
def download_files (hash : HashOracle) (fs : FileSystem)
    (download_tasks : List DownloadTask) : DownloadOutcome :=
  let survivors := download_tasks.filter (download_filter hash fs)
  let total := survivors.length
  { survivors := survivors
    http_requests := survivors.map (fun t => t.url)
    events := [.start, .progress 0 0 1] ++
      (List.range total).map (fun i => .progress (i + 1) total 2) ++
      [.succeed] }

/-- The capacity passed to buffer_unordered in download_files: a fixed
constant, independent of the task list. -/
def buffer_unordered_limit : Nat := 16

/-- State of the bounded scheduler buffer_unordered realises: tasks not yet
polled, in-flight fetches, and completed fetches. -/
structure SchedState where
  queued : List DownloadTask
  inflight : List DownloadTask
  done : List DownloadTask
deriving DecidableEq, Repr

/-- Small-step semantics of buffer_unordered(16) over the surviving tasks:
the combinator polls the underlying stream (starting the next fetch) only
while fewer than 16 futures are in flight, and any in-flight fetch may
complete. -/
inductive SchedStep : SchedState → SchedState → Prop where
  | start (t : DownloadTask) (q fl d : List DownloadTask) :
      fl.length < buffer_unordered_limit →
      SchedStep ⟨t :: q, fl, d⟩ ⟨q, t :: fl, d⟩
  | finish (q fl1 fl2 d : List DownloadTask) (t : DownloadTask) :
      SchedStep ⟨q, fl1 ++ t :: fl2, d⟩ ⟨q, fl1 ++ fl2, t :: d⟩

/-- Initial scheduler state: every surviving task queued, nothing started. -/
def SchedState.init (tasks : List DownloadTask) : SchedState :=
  ⟨tasks, [], []⟩

/-- States the downloader execution can reach from the initial state. -/
def SchedReachable (tasks : List DownloadTask) (s : SchedState) : Prop :=
  Relation.ReflTransGen SchedStep (SchedState.init tasks) s

/-- Game profile (launch/mod.rs). -/
structure GameProfile where
  name : String := ""
  uuid : String := ""
deriving DecidableEq, Repr

/-- User type (launch/mod.rs). -/
inductive UserType where
  | mojang
  | legacy
deriving DecidableEq, Repr

/-- Server autoconnect target (launch/mod.rs). -/
structure GameServer where
  ip : String
  port : Option Nat
deriving DecidableEq, Repr

/-- Yggdrasil agent configuration (launch/mod.rs). -/
structure YggdrasilAgent where
  jar : String
  server : String
  prefetched : Option String
deriving DecidableEq, Repr

/-- Game process priority (launch/mod.rs). -/
inductive ProcessPriority where
  | high
  | aboveNormal
  | normal
  | belowNormal
  | low
deriving DecidableEq, Repr

/-- User selected garbage collector (launch/mod.rs). -/
inductive GC where
  | serial
  | parallel
  | parallelOld
  | g1
  | z
deriving DecidableEq, Repr

/-- Modelled from the spec: JavaExec is declared in a crate file that is not
part of the sources; per §3 the caller supplies the java binary path. -/
structure JavaExec where
  binary : String
deriving DecidableEq, Repr

/-- Launch options record from launch/mod.rs (paths as strings). -/
structure LaunchOptions where
  game_profile : GameProfile := {}
  access_token : String := ""
  user_type : UserType := .mojang
  properties : String := ""
  launcher_name : String := ""
  launcher_version : String := ""
  version_name : Option String := none
  version_type : Option String := none
  game_icon : Option String := none
  game_name : String := ""
  game_path : String := ""
  resource_path : String := ""
  java_path : String := ""
  min_memory : Option Nat := none
  max_memory : Option Nat := none
  server : Option GameServer := none
  width : Nat := 854
  height : Nat := 480
  fullscreen : Bool := false
  extra_jvm_args : List String := []
  extra_mc_args : List String := []
  is_demo : Bool := false
  native_root : String := ""
  ignore_invalid_minecraft_certificates : Bool := false
  ignore_patch_discrepancies : Bool := false
  extra_class_paths : Option (List String) := none
  version_root : String := ""
  version : Version := { id := "" }
  features : List (String × Json) := []
  process_priority : ProcessPriority := .normal
  yggdrasil_agent : Option YggdrasilAgent := none
  version_id : String := ""
  gc : GC := .g1
  minecraft_location : MinecraftLocation := MinecraftLocation.new ""

/-- The token vector assembled by the argument assembler
(`LaunchArguments(Vec<String>)`). -/
structure LaunchArguments where
  args : List String
deriving DecidableEq, Repr

/-- The command handed to the process spawner: a program and its argv. -/
structure CommandSpec where
  program : String
  args : List String
deriving DecidableEq, Repr

/-- Substring test used for the powershell lookup
(`v.to_lowercase().contains("powershell")`). -/
def str_contains (haystack needle : String) : Bool :=
  (List.range (haystack.data.length + 1)).any
    (fun i => needle.data.isPrefixOf (haystack.data.drop i))

/-- The nice -n arguments chosen by process_priority on non-Windows. -/
def nice_priority_args : ProcessPriority → List String
  | .high => ["-n", "0"]
  | .aboveNormal => ["-n", "5"]
  | .normal => []
  | .belowNormal => ["-n", "15"]
  | .low => ["-n", "19"]

/-- LaunchArguments::to_async_command from launch/mod.rs: on Windows the
program is powershell.exe located through the PATH variable (modelled by
`env_path`; unwrap panics when PATH is unset or holds no powershell entry)
with a literal "-c" first; elsewhere the program is `nice`, with the -n args
chosen by process_priority.  In both cases the whole token vector is joined
with single spaces, prefixed by the java binary path, and delivered as one
single trailing argument. -/
def LaunchArguments.to_async_command (self : LaunchArguments)
    (java_exec : JavaExec) (launch_options : LaunchOptions)
    (platform : PlatformInfo) (env_path : Option String) :
    Option CommandSpec :=
  let joined := java_exec.binary ++ " " ++ String.intercalate " " self.args
  match platform.os_type with
  | .windows =>
    match env_path with
    | none => none
    | some path_var =>
      match (path_var.splitOn ";").find?
          (fun v => str_contains v.toLower "powershell") with
      | none => none
      | some powershell_folder =>
        some ⟨pathJoin powershell_folder "powershell.exe", ["-c", joined]⟩
  | _ =>
    some ⟨"nice",
      nice_priority_args launch_options.process_priority ++ [joined]⟩

/-- Scan for the first '\x7d' closing a placeholder: the lazy `(.*?)}` group
with `.` not matching a newline.  Returns the captured key and the remainder
after the closing brace, or `none` when no match starts here. -/
def find_close_brace : List Char → Option (List Char × List Char)
  | [] => none
  | c :: rest =>
    if c = '\n' then none
    else if c = '\x7d' then some ([], rest)
    else
      match find_close_brace rest with
      | none => none
      | some (key, rem) => some (c :: key, rem)

/-- The replace_all loop of `format` (launch/mod.rs) on character lists,
with fuel bounding the number of scan positions (the callers pass the input
length, which always suffices): at each position a leftmost lazy match of
the placeholder pattern is attempted; on a match the capture is replaced by
its binding, or by the bare key itself when unbound, and scanning resumes
after the match; otherwise one character is emitted. -/
def format_go (lookup : String → Option String) :
    Nat → List Char → List Char
  | 0, l => l
  | _ + 1, [] => []
  | _ + 1, [c] => [c]
  | fuel + 1, c1 :: c2 :: rest =>
    if c1 = '$' ∧ c2 = '\x7b' then
      match find_close_brace rest with
      | some (key, rem) =>
        let k := String.mk key
        ((lookup k).getD k).data ++ format_go lookup fuel rem
      | none => c1 :: format_go lookup fuel (c2 :: rest)
    else
      c1 :: format_go lookup fuel (c2 :: rest)

/-- The format function from launch/mod.rs: replace every placeholder
occurrence in the template, looking keys up in the substitution map; a
missing key is replaced by the bare key name. -/
def format (template : String) (args : List (String × String)) : String :=
  String.mk (format_go
    (fun k => (args.find? (fun p => p.1 == k)).map (fun p => p.2))
    template.data.length template.data)

/-- Whether a string still contains a literal placeholder, i.e. a position
where the source's regex would match: a "$\x7b" followed by a
newline-free run up to a closing "\x7d". -/
def has_placeholder : List Char → Bool
  | [] => false
  | [_] => false
  | c1 :: c2 :: rest =>
    (c1 = '$' && c2 = '\x7b' && (find_close_brace rest).isSome) ||
      has_placeholder (c2 :: rest)

/-- The value an override-when-Some scalar resolves to over a chain listed
child-first: the childmost present value, else the given default. -/
def resolve_override {α : Type} (chain : List (Option α)) (dflt : α) : α :=
  (chain.findSome? id).getD dflt

/-- A rule with only an allow action. -/
def allow_rule : Json :=
  .obj [("action", .str "allow")]

/-- An allow rule restricted to one os name. -/
def allow_os_rule (os_name : String) : Json :=
  .obj [("action", .str "allow"), ("os", .obj [("name", .str os_name)])]

/-- A disallow rule restricted to one os name. -/
def disallow_os_rule (os_name : String) : Json :=
  .obj [("action", .str "disallow"), ("os", .obj [("name", .str os_name)])]

/-- A concrete linux platform used by the concrete test vectors. -/
def linux_platform : PlatformInfo :=
  ⟨"x64", "linux", "5.15.0", .linux⟩

/-- A regex oracle on which every pattern fails to compile; the concrete
vectors below never reach a version regex, so any oracle does. -/
def no_regex : RegexOracle := fun _ => none

/-- The game root used by the concrete test vectors. -/
def test_location : MinecraftLocation := MinecraftLocation.new "test"

/-- The parent of the spec's S2 two-file chain: supplies assetIndex,
downloads, assets, libraries and arguments. -/
def s2_parent : Version :=
  { id := "p"
    asset_index := some ⟨1, "u", "i", 1⟩
    downloads := some [("client", DownloadInfo.mk "abc" 1 "v")]
    assets := some "i"
    libraries := some []
    arguments := some { game := some [], jvm := some [] } }

/-- The child of the spec's S2 two-file chain: only id, inheritsFrom and
mainClass. -/
def s2_child : Version :=
  { id := "c", inherits_from := some "p", main_class := some "X" }

/-- The versions folder holding exactly the S2 parent file. -/
def s2_folder : VersionsFolder :=
  fun n => if n = "p" then .ok s2_parent else .missing

/-- The S2 parent extended with a minimumLauncherVersion of 5. -/
def min5_parent : Version :=
  { s2_parent with minimum_launcher_version := some 5 }

/-- The S2 child extended with a minimumLauncherVersion of 1. -/
def min1_child : Version :=
  { s2_child with minimum_launcher_version := some 1 }

/-- The versions folder holding exactly the min5 parent file. -/
def min5_folder : VersionsFolder :=
  fun n => if n = "p" then .ok min5_parent else .missing

/-- First half of a two-file inheritsFrom cycle. -/
def cyc_a : Version :=
  { id := "a", inherits_from := some "b", main_class := some "X" }

/-- Second half of a two-file inheritsFrom cycle. -/
def cyc_b : Version :=
  { id := "b", inherits_from := some "a" }

/-- The versions folder holding the cyclic pair. -/
def cyc_folder : VersionsFolder :=
  fun n => if n = "a" then .ok cyc_a else if n = "b" then .ok cyc_b
    else .missing

/-- A record with no inheritance and no mainClass/assetIndex/downloads. -/
def bad_version : Version := { id := "z" }

/-- A versions folder on which every read fails. -/
def missing_folder : VersionsFolder := fun _ => .missing

/-- A concrete hash oracle for the downloader vectors. -/
def sample_hash : HashOracle :=
  fun data => if data = [1, 2] then "aa" else "bb"

/-- A filesystem with one file /x whose contents hash to "aa". -/
def sample_fs : FileSystem :=
  fun f => if f = "/x" then some [1, 2] else none

/-- A task whose sha1 matches the existing file at /x. -/
def match_task : DownloadTask := ⟨"http://u", "/x", some "aa"⟩

/-- A task over the existing file at /x carrying no sha1. -/
def nosha_task : DownloadTask := ⟨"http://u", "/x", none⟩

/-- The name referenced at depth k of the inheritsFrom walk: depth 0 is the
name the starting record references, and each further step reads the file
just referenced (requiring it to parse) and follows its inheritsFrom.
`some n` means the loop, on its (k+1)-th iteration, will read
versions/<n>/<n>.json. -/
def chain_names (folder : VersionsFolder) : Option String → Nat →
    Option String
  | none, _ => none
  | some n, 0 => some n
  | some n, k + 1 =>
    match folder n with
    | .ok v => chain_names folder v.inherits_from k
    | _ => none

/-- A parent record that itself names a grandparent. -/
def deep_parent : Version := { id := "p", inherits_from := some "q" }

/-- A folder whose p file is fine but whose q file, referenced at depth 1,
is absent. -/
def deep_folder : VersionsFolder :=
  fun nm => if nm = "p" then .ok deep_parent else .missing

/-- The resolved version parse produces on the min1 child over the min5
parent. -/
def c2_resolved : ResolvedVersion where
  id := "c"
  arguments := some { game := "", jvm := "" }
  main_class := "X"
  asset_index := none
  assets := ""
  downloads := none
  libraries := []
  minimum_launcher_version := 5
  release_time := ""
  time := ""
  version_type := ""
  logging := none
  java_version := { component := "jre-legacy", major_version := 8 }
  minecraft_version := "c"
  inheritances := ["p"]
  path_chain := ["test/versions/p/p.json"]

/-- C7: evaluation of the folder model at the game root ".minecraft".  Every
derived field of the claim matches its documented relative path except
`saves`, which the source joins with "resourcepacks"; get_version_json is
exactly <root>/versions/<id>/<id>.json. -/
theorem C7_folder_saves_eval :
    (MinecraftLocation.new ".minecraft").libraries = ".minecraft/libraries"
  ∧ (MinecraftLocation.new ".minecraft").assets = ".minecraft/assets"
  ∧ (MinecraftLocation.new ".minecraft").latest_log =
      ".minecraft/logs/latest.log"
  ∧ (MinecraftLocation.new ".minecraft").mods = ".minecraft/mods"
  ∧ (MinecraftLocation.new ".minecraft").resourcepacks =
      ".minecraft/resourcepacks"
  ∧ (MinecraftLocation.new ".minecraft").options = ".minecraft/options.txt"
  ∧ (MinecraftLocation.new ".minecraft").get_version_json "1.19.4" =
      ".minecraft/versions/1.19.4/1.19.4.json"
  ∧ (MinecraftLocation.new ".minecraft").saves = ".minecraft/resourcepacks"
  ∧ ".minecraft/resourcepacks" ≠ ".minecraft/saves" := by
  decide

/-- C3: evaluation of Version::parse on the spec's S2 two-file chain.  The
resolved mainClass, inheritances and pathChain are as the claim states, but
the output asset_index is none and assets is empty — the merged values
inherited from the parent are discarded in favour of the child's raw
fields, so assetIndex is absent in the output even though the parent
supplies ⟨1, "u", "i", 1⟩. -/
theorem C3_parse_discards_inherited_assets :
    (Version.parse s2_child test_location s2_folder no_regex linux_platform
        2).resolved.map
      (fun r => (r.main_class, r.asset_index, r.assets, r.inheritances,
        r.path_chain))
      = some ("X", none, "", ["p"], ["test/versions/p/p.json"])
  ∧ s2_parent.asset_index = some ⟨1, "u", "i", 1⟩
  ∧ (none : Option AssetIndex) ≠ s2_parent.asset_index
  ∧ s2_parent.assets = some "i"
  ∧ ("" : String) ≠ "i" := by
  decide

/-- C2 counterexample: in the two-file chain where the child carries
minimumLauncherVersion 1 and the parent carries 5, the resolved
minimumLauncherVersion is 5, not the child's 1 — the field is merged with
max, so a child value does not override a parent value. -/
theorem C2_counterexample_min_launcher :
    (Version.parse min1_child test_location min5_folder no_regex
        linux_platform 2).resolved.map
      (fun r => r.minimum_launcher_version) = some 5
  ∧ min1_child.minimum_launcher_version = some 1
  ∧ (5 : Int) ≠ 1 := by
  decide

/-- C5 counterexample: the source pre-filter has no verify_existing switch;
for an existing file and a task with no sha1 the source keeps the task,
while the claimed predicate with verify_existing = false drops it. -/
theorem C5_counterexample_no_verify_switch :
    download_filter sample_hash sample_fs nosha_task = true
  ∧ spec_pre_filter_keep sample_hash false (sample_fs nosha_task.file)
      nosha_task.sha1 = false := by
  decide

/-- C8 counterexample: two different token vectors — one with an embedded
space and one split at it — produce identical commands, and the whole
vector lands in one single argv entry "java a b", so tokens are not
delivered as separate arguments. -/
theorem C8_counterexample_tokens_joined :
    LaunchArguments.to_async_command ⟨["a b"]⟩ ⟨"java"⟩ {} linux_platform
        none
      = LaunchArguments.to_async_command ⟨["a", "b"]⟩ ⟨"java"⟩ {}
        linux_platform none
  ∧ LaunchArguments.to_async_command ⟨["a b"]⟩ ⟨"java"⟩ {} linux_platform
      none = some ⟨"nice", ["java a b"]⟩
  ∧ ¬ ("a b" ∈ ["java a b"]) := by
  decide

/-- C9 counterexample: on the nested template "$\x7b$\x7bx\x7d\x7d" with an
empty map the formatter outputs "$\x7bx\x7d", which is itself a literal
placeholder — so the output can retain a literal placeholder. -/
theorem C9_counterexample_nested_placeholder :
    format "$\x7b$\x7bx\x7d\x7d" [] = "$" ++ "\x7b" ++ "x" ++ "\x7d"
  ∧ has_placeholder (format "$\x7b$\x7bx\x7d\x7d" []).data = true := by
  decide

/-- On the cyclic two-file folder the loading loop exhausts any fuel: the
while loop of Version::parse has no cycle check and never exits. -/
theorem load_cycle_fuel_out : ∀ (fuel : Nat) (cur : Option String),
    (cur = some "a" ∨ cur = some "b") →
    ∀ (vs : List Version) (inh pc : List String),
    load_inheritance cyc_folder test_location cur vs inh pc fuel =
      .fuelOut := by
  intro fuel
  induction fuel with
  | zero =>
    intro cur h vs inh pc
    rcases h with h | h <;> subst h <;> rfl
  | succ n ih =>
    intro cur h vs inh pc
    rcases h with h | h <;> subst h
    · show load_inheritance cyc_folder test_location (some "a") vs inh pc
        (n + 1) = .fuelOut
      have hfold : cyc_folder "a" = .ok cyc_a := rfl
      simp only [load_inheritance, hfold]
      exact ih (some "b") (Or.inr rfl) _ _ _
    · show load_inheritance cyc_folder test_location (some "b") vs inh pc
        (n + 1) = .fuelOut
      have hfold : cyc_folder "b" = .ok cyc_b := rfl
      simp only [load_inheritance, hfold]
      exact ih (some "a") (Or.inl rfl) _ _ _

/-- C4: on the cyclic chain a -> b -> a the parse loop diverges (it runs
out of any amount of fuel without returning), so the cycle is not rejected
with a BadVersionJson error; separately, an invariant violation (empty
mainClass, default assetIndex, empty downloads) aborts the process through
the explicit panic rather than returning an error value. -/
theorem C4_cycle_divergence :
    (∀ fuel, Version.parse cyc_a test_location cyc_folder no_regex
      linux_platform fuel = .fuelOut)
  ∧ Version.parse bad_version test_location cyc_folder no_regex
      linux_platform 5 = .panicked .badVersionJson := by
  constructor
  · intro fuel
    have h := load_cycle_fuel_out fuel (some "b") (Or.inr rfl) [cyc_a] [] []
    unfold Version.parse
    rw [show cyc_a.inherits_from = some "b" from rfl, h]
  · decide

/-- When the walk references a missing or malformed file at any depth, the
loading loop reaches the corresponding unwrap panic, whatever has been
accumulated so far, as soon as the fuel covers that depth. -/
theorem load_reaches_bad (folder : VersionsFolder)
    (mc : MinecraftLocation) :
    ∀ (k : Nat) (cur : Option String) (n : String) (vs : List Version)
      (inh pc : List String) (fuel : Nat),
    chain_names folder cur k = some n → k < fuel →
    ((folder n = .missing →
      load_inheritance folder mc cur vs inh pc fuel =
        .panicked .ioUnwrap) ∧
     (folder n = .malformed →
      load_inheritance folder mc cur vs inh pc fuel =
        .panicked .jsonUnwrap)) := by
  intro k
  induction k with
  | zero =>
    intro cur n vs inh pc fuel href hfuel
    cases cur with
    | none => simp [chain_names] at href
    | some m =>
      simp [chain_names] at href
      subst href
      cases fuel with
      | zero => omega
      | succ f =>
        constructor
        · intro hmiss
          simp only [load_inheritance, hmiss]
        · intro hmal
          simp only [load_inheritance, hmal]
  | succ k2 ih =>
    intro cur n vs inh pc fuel href hfuel
    cases cur with
    | none => simp [chain_names] at href
    | some m =>
      cases hm : folder m with
      | missing => simp [chain_names, hm] at href
      | malformed => simp [chain_names, hm] at href
      | ok v =>
        have href2 : chain_names folder v.inherits_from k2 = some n := by
          simpa [chain_names, hm] using href
        cases fuel with
        | zero => omega
        | succ f =>
          have hstep := ih v.inherits_from n (vs ++ [v]) (inh ++ [m])
            (pc ++ [pathJoin (pathJoin mc.versions m) (m ++ ".json")]) f
            href2 (by omega)
          constructor
          · intro hmiss
            simp only [load_inheritance, hm]
            exact hstep.1 hmiss
          · intro hmal
            simp only [load_inheritance, hm]
            exact hstep.2 hmal

/-- When every file the walk actually references reads and deserialises,
the loading loop never reaches an unwrap panic. -/
theorem load_referenced_ok_no_panic (folder : VersionsFolder)
    (mc : MinecraftLocation) :
    ∀ (fuel : Nat) (cur : Option String) (vs : List Version)
      (inh pc : List String) (r : Panic),
    (∀ k m, chain_names folder cur k = some m → ∃ v, folder m = .ok v) →
    load_inheritance folder mc cur vs inh pc fuel ≠ .panicked r := by
  intro fuel
  induction fuel with
  | zero =>
    intro cur vs inh pc r hall
    cases cur <;> simp [load_inheritance]
  | succ f ih =>
    intro cur vs inh pc r hall
    cases cur with
    | none => simp [load_inheritance]
    | some m =>
      obtain ⟨v, hv⟩ := hall 0 m rfl
      simp only [load_inheritance, hv]
      exact ih v.inherits_from _ _ _ r
        (fun k m2 h => hall (k + 1) m2 (by simp [chain_names, hv]; exact h))

/-- C10: whenever the inheritsFrom walk references, at any depth of the
chain, a name whose json file is missing/unreadable, Version::parse aborts
through the read_to_string unwrap, and through the from_str unwrap when
that file is malformed — never a typed IoError/JsonError return — and these
two panics are unreachable at the public parse interface exactly under the
precondition that every file the walk references exists and deserialises. -/
theorem C10_parent_unwrap_panics (folder : VersionsFolder)
    (mc : MinecraftLocation) (compile : RegexOracle) (p : PlatformInfo)
    (self : Version) (k fuel : Nat) (n : String) :
    (chain_names folder self.inherits_from k = some n → k < fuel →
      folder n = .missing →
      Version.parse self mc folder compile p fuel = .panicked .ioUnwrap)
  ∧ (chain_names folder self.inherits_from k = some n → k < fuel →
      folder n = .malformed →
      Version.parse self mc folder compile p fuel = .panicked .jsonUnwrap)
  ∧ ((∀ k2 m, chain_names folder self.inherits_from k2 = some m →
        ∃ v, folder m = .ok v) →
      Version.parse self mc folder compile p fuel ≠ .panicked .ioUnwrap ∧
      Version.parse self mc folder compile p fuel ≠
        .panicked .jsonUnwrap) := by
  refine ⟨?_, ?_, ?_⟩
  · intro href hfuel hmiss
    have hload := (load_reaches_bad folder mc k self.inherits_from n [self]
      [] [] fuel href hfuel).1 hmiss
    unfold Version.parse
    rw [hload]
  · intro href hfuel hmal
    have hload := (load_reaches_bad folder mc k self.inherits_from n [self]
      [] [] fuel href hfuel).2 hmal
    unfold Version.parse
    rw [hload]
  · intro hall
    have hload := load_referenced_ok_no_panic folder mc fuel
      self.inherits_from [self] [] []
    constructor <;> {
      unfold Version.parse
      cases hres : load_inheritance folder mc self.inherits_from [self] [] []
          fuel with
      | fuelOut => simp
      | panicked r => exact absurd hres (hload r hall)
      | ok versions inheritances path_chain =>
        dsimp only
        split
        · simp
        · split <;> simp
    }

/-- C10 witness: parse aborts with the read unwrap both when the immediate
parent file is absent (depth 0) and when only the grandparent file is
absent (depth 1), and neither read panic occurs on the complete two-file
chain whose referenced files all parse. -/
theorem C10_witness :
    Version.parse s2_child test_location missing_folder no_regex
      linux_platform 3 = .panicked .ioUnwrap
  ∧ Version.parse s2_child test_location deep_folder no_regex
      linux_platform 3 = .panicked .ioUnwrap
  ∧ Version.parse min1_child test_location min5_folder no_regex
      linux_platform 2 ≠ .panicked .ioUnwrap := by
  refine ⟨?_, ?_, ?_⟩
  · exact (C10_parent_unwrap_panics missing_folder test_location no_regex
      linux_platform s2_child 0 3 "p").1 rfl (by decide) rfl
  · exact (C10_parent_unwrap_panics deep_folder test_location no_regex
      linux_platform s2_child 1 3 "q").1 rfl (by decide) rfl
  · refine ((C10_parent_unwrap_panics min5_folder test_location no_regex
      linux_platform min1_child 0 2 "p").2.2 ?_).1
    intro k2 m h
    cases k2 with
    | zero =>
      simp [chain_names] at h
      subst h
      exact ⟨min5_parent, rfl⟩
    | succ k3 =>
      simp [chain_names, min5_folder, min5_parent, s2_parent] at h

/-- C1: check_allowed is true on the empty list; on a non-empty list it
folds the rules over the verdict starting from disallow, where a rule with
no os object or no os.name sets the verdict to (action == "allow"), a rule
whose os.name differs from the platform is skipped, a rule with matching
os.name and no os.version sets the verdict, and a rule with matching
os.name and a version regex sets the verdict exactly on a regex match;
hence later rules override earlier ones, and the four concrete vectors of
the claim evaluate as stated. -/
theorem C1_check_allowed_fold (compile : RegexOracle) (p : PlatformInfo)
    (rules : List Json) (b : Bool) (rule : Json) (a : String)
    (os_name pat : String) (is_match : String → Bool)
    (ha : (rule.index "action").as_str = some a)
    (hne : rules ≠ []) :
    check_allowed compile [] p = some true
  ∧ check_allowed compile rules p =
      rules.foldlM (check_allowed_step compile p) false
  ∧ ((rule.index "os").is_object = false →
      check_allowed_step compile p b rule = some (a == "allow"))
  ∧ ((rule.index "os").is_object = true →
      ((rule.index "os").index "name").is_string = false →
      check_allowed_step compile p b rule = some (a == "allow"))
  ∧ ((rule.index "os").index "name" = .str os_name → os_name ≠ p.name →
      check_allowed_step compile p b rule = some b)
  ∧ ((rule.index "os").index "name" = .str p.name →
      ((rule.index "os").index "version").is_string = false →
      check_allowed_step compile p b rule = some (a == "allow"))
  ∧ ((rule.index "os").index "name" = .str p.name →
      (rule.index "os").index "version" = .str pat →
      compile pat = some is_match →
      check_allowed_step compile p b rule =
        some (if is_match p.version then a == "allow" else b))
  ∧ check_allowed compile [allow_rule] p = some true
  ∧ check_allowed compile [allow_os_rule os_name] p =
      some (p.name == os_name)
  ∧ check_allowed compile [allow_rule, disallow_os_rule p.name] p =
      some false := by
  have hobj_of_name : ∀ (s : String),
      (rule.index "os").index "name" = .str s →
      (rule.index "os").is_object = true := by
    intro s hname
    cases h2 : rule.index "os" with
    | obj fields => rfl
    | null => rw [h2] at hname; simp [Json.index] at hname
    | bool b2 => rw [h2] at hname; simp [Json.index] at hname
    | num n2 => rw [h2] at hname; simp [Json.index] at hname
    | str s2 => rw [h2] at hname; simp [Json.index] at hname
    | arr xs => rw [h2] at hname; simp [Json.index] at hname
  refine ⟨rfl, ?_, ?_, ?_, ?_, ?_, ?_, ?_, ?_, ?_⟩
  · cases rules with
    | nil => exact absurd rfl hne
    | cons x xs => rfl
  · intro hno
    simp only [check_allowed_step, ha]
    simp [hno]
  · intro hobj hnostr
    simp only [check_allowed_step, ha]
    simp [hobj, hnostr]
  · intro hname hneq
    have hobj := hobj_of_name os_name hname
    have hstr2 : (Json.str os_name).is_string = true := rfl
    have hbne : (p.name != os_name) = true := by
      simp [bne_iff_ne]
      exact fun h => hneq h.symm
    simp only [check_allowed_step, ha]
    simp [hname, hstr2, hobj, Json.as_str, hbne]
  · intro hname hnover
    have hobj := hobj_of_name p.name hname
    have hstr2 : (Json.str p.name).is_string = true := rfl
    simp only [check_allowed_step, ha]
    simp [hname, hstr2, hobj, hnover, Json.as_str, bne_self_eq_false]
  · intro hname hver hc
    have hobj := hobj_of_name p.name hname
    have hstr2 : (Json.str p.name).is_string = true := rfl
    have hver2 : (Json.str pat).is_string = true := rfl
    simp only [check_allowed_step, ha]
    simp [hname, hstr2, hobj, hver, hver2, Json.as_str,
      bne_self_eq_false, hc, apply_ite]
    split <;> simp_all
  · rfl
  · by_cases heq : p.name = os_name
    · subst heq
      simp [check_allowed, check_allowed_step, allow_os_rule, Json.index,
        Json.as_str, Json.is_string, Json.is_object, List.foldlM]
    · have hbeq : (p.name == os_name) = false := by
        simp [heq]
      simp [check_allowed, check_allowed_step, allow_os_rule, Json.index,
        Json.as_str, Json.is_string, Json.is_object, List.foldlM, hbeq,
        bne]
  · simp [check_allowed, check_allowed_step, allow_rule, disallow_os_rule,
      Json.index, Json.as_str, Json.is_string, Json.is_object,
      List.foldlM, bne]

/-- C1 witness: the fold characterisation applied to the concrete linux
platform and the claim's rule vectors. -/
theorem C1_witness :
    check_allowed no_regex [allow_rule] linux_platform = some true
  ∧ check_allowed no_regex [allow_os_rule "osx"] linux_platform =
      some ("linux" == "osx")
  ∧ check_allowed no_regex [allow_rule, disallow_os_rule "linux"]
      linux_platform = some false := by
  have h := C1_check_allowed_fold no_regex linux_platform [allow_rule]
    false allow_rule "allow" "osx" "" (fun _ => true) rfl
    (List.cons_ne_nil _ _)
  exact ⟨h.2.2.2.2.2.2.2.1, h.2.2.2.2.2.2.2.2.1, h.2.2.2.2.2.2.2.2.2⟩

/-- C5 (amended): the pre-filter has no verify_existing switch — it always
behaves as the spec's predicate with verify_existing fixed to true, and it
hashes every existing file even when the task carries no sha1; consequently
a single task whose existing file matches its sha1 is dropped, no HTTP
request is made, and the observer sees only start, progress(0,0,step=1) and
succeed. -/
theorem C5_filter_always_verifies (hash : HashOracle) (fs : FileSystem)
    (t : DownloadTask) (d : List Nat) (s : String)
    (hfile : fs t.file = some d) (hsha : t.sha1 = some s)
    (hmatch : hash d = s) :
    (∀ u : DownloadTask, download_filter hash fs u =
      spec_pre_filter_keep hash true (fs u.file) u.sha1)
  ∧ (∀ u : DownloadTask, download_filter_hashes fs u = (fs u.file).isSome)
  ∧ download_files hash fs [t] =
      ⟨[], [], [.start, .progress 0 0 1, .succeed]⟩ := by
  refine ⟨?_, ?_, ?_⟩
  · intro u
    unfold download_filter spec_pre_filter_keep
    cases fs u.file <;> cases u.sha1 <;> simp
  · intro u
    rfl
  · have hdrop : download_filter hash fs t = false := by
      unfold download_filter
      rw [hfile, hsha]
      simp [hmatch]
    unfold download_files
    simp [List.filter, hdrop]

/-- C5 witness: the concrete matching-file task evaluates as the amended
claim states. -/
theorem C5_witness :
    download_files sample_hash sample_fs [match_task] =
      ⟨[], [], [.start, .progress 0 0 1, .succeed]⟩
  ∧ download_filter sample_hash sample_fs match_task =
      spec_pre_filter_keep sample_hash true (sample_fs match_task.file)
        match_task.sha1 := by
  have h := C5_filter_always_verifies sample_hash sample_fs match_task
    [1, 2] "aa" (by decide) (by decide) (by decide)
  exact ⟨h.2.2, h.1 match_task⟩

/-- Along every reachable scheduler state the in-flight count stays within
the buffer_unordered capacity, and the three queues partition the original
task list by count. -/
theorem sched_invariant (tasks : List DownloadTask) (s : SchedState)
    (h : SchedReachable tasks s) :
    s.inflight.length ≤ buffer_unordered_limit ∧
    s.queued.length + s.inflight.length + s.done.length = tasks.length := by
  induction h with
  | refl => simp [SchedState.init]
  | tail hab hbc ih =>
    obtain ⟨ih1, ih2⟩ := ih
    cases hbc with
    | start t q fl d hlt =>
      simp only [SchedState.queued, SchedState.inflight, SchedState.done,
        List.length_cons] at ih1 ih2 ⊢
      omega
    | finish q fl1 fl2 d t =>
      simp only [SchedState.queued, SchedState.inflight, SchedState.done,
        List.length_cons, List.length_append] at ih1 ih2 ⊢
      omega

/-- A scheduler state with no successor has drained both the queue and the
in-flight set: whenever work remains a step applies. -/
theorem sched_stuck_drained (s : SchedState)
    (hstuck : ∀ s2, ¬ SchedStep s s2) :
    s.queued = [] ∧ s.inflight = [] := by
  obtain ⟨q, fl, d⟩ := s
  cases fl with
  | cons t fl2 =>
    exact absurd (SchedStep.finish q [] fl2 d t) (hstuck _)
  | nil =>
    cases q with
    | nil => exact ⟨rfl, rfl⟩
    | cons t q2 =>
      exact absurd
        (SchedStep.start t q2 [] d (by simp [buffer_unordered_limit]))
        (hstuck _)

/-- From any state the scheduler can run to completion: there is a finite
step sequence draining queued and in-flight tasks into done. -/
theorem sched_run_to_done : ∀ (n : Nat) (q fl d : List DownloadTask),
    2 * q.length + fl.length ≤ n →
    ∃ done2, Relation.ReflTransGen SchedStep ⟨q, fl, d⟩ ⟨[], [], done2⟩ ∧
      done2.length = q.length + fl.length + d.length := by
  intro n
  induction n with
  | zero =>
    intro q fl d h
    cases q with
    | cons t q2 => simp at h
    | nil =>
      cases fl with
      | cons t fl2 => simp at h
      | nil => exact ⟨d, .refl, by simp⟩
  | succ n ih =>
    intro q fl d h
    cases fl with
    | cons t fl2 =>
      have hstep : SchedStep ⟨q, t :: fl2, d⟩ ⟨q, fl2, t :: d⟩ :=
        SchedStep.finish q [] fl2 d t
      obtain ⟨d2, hrun, hlen⟩ := ih q fl2 (t :: d)
        (by simp at h ⊢; omega)
      exact ⟨d2, .head hstep hrun, by simp at hlen ⊢; omega⟩
    | nil =>
      cases q with
      | nil => exact ⟨d, .refl, by simp⟩
      | cons t q2 =>
        have hstep : SchedStep ⟨t :: q2, [], d⟩ ⟨q2, [t], d⟩ :=
          SchedStep.start t q2 [] d (by simp [buffer_unordered_limit])
        obtain ⟨d2, hrun, hlen⟩ := ih q2 [t] d (by simp at h ⊢; omega)
        exact ⟨d2, .head hstep hrun, by simp at hlen ⊢; omega⟩

/-- C6: along every execution of the bounded scheduler at most 16 fetches
are in flight — the bound is the fixed buffer_unordered capacity 16,
independent of the task count — a stuck state has submitted and completed
all N tasks, and from every reachable state a finite continuation completes
all N tasks. -/
theorem C6_bounded_concurrency (tasks : List DownloadTask) (s : SchedState)
    (h : SchedReachable tasks s) :
    s.inflight.length ≤ buffer_unordered_limit
  ∧ buffer_unordered_limit = 16
  ∧ ((∀ s2, ¬ SchedStep s s2) →
      s.queued = [] ∧ s.inflight = [] ∧ s.done.length = tasks.length)
  ∧ ∃ done2, Relation.ReflTransGen SchedStep s ⟨[], [], done2⟩ ∧
      done2.length = tasks.length := by
  have hinv := sched_invariant tasks s h
  refine ⟨hinv.1, rfl, ?_, ?_⟩
  · intro hstuck
    obtain ⟨hq, hfl⟩ := sched_stuck_drained s hstuck
    refine ⟨hq, hfl, ?_⟩
    have h2 := hinv.2
    rw [hq, hfl] at h2
    simpa using h2
  · have h2 := hinv.2
    obtain ⟨q, fl, d⟩ := s
    obtain ⟨d2, hrun, hlen⟩ :=
      sched_run_to_done (2 * q.length + fl.length) q fl d le_rfl
    refine ⟨d2, hrun, ?_⟩
    simp only [SchedState.queued, SchedState.inflight, SchedState.done]
      at h2 hlen
    omega

/-- C6 witness: the bound and the completion run at the initial state over
one concrete task. -/
theorem C6_witness :
    (SchedState.init [match_task]).inflight.length ≤ buffer_unordered_limit
  ∧ buffer_unordered_limit = 16
  ∧ ∃ done2, Relation.ReflTransGen SchedStep (SchedState.init [match_task])
      ⟨[], [], done2⟩ ∧ done2.length = [match_task].length := by
  have h := C6_bounded_concurrency [match_task] (SchedState.init [match_task])
    Relation.ReflTransGen.refl
  exact ⟨h.1, h.2.1, h.2.2.2⟩

/-- C8 (amended): the spawned command does not receive the tokens as
separate argv entries — the whole token vector is joined with single
spaces, prefixed by the java binary path, and delivered as one single
argument to a wrapper process: `nice` (after its -n priority args) on
non-Windows, and `powershell.exe -c` on Windows. -/
theorem C8_joined_single_argument (tokens : List String) (java : JavaExec)
    (opts : LaunchOptions) (platform : PlatformInfo) (env : Option String)
    (hos : platform.os_type ≠ .windows) :
    LaunchArguments.to_async_command ⟨tokens⟩ java opts platform env =
      some ⟨"nice", nice_priority_args opts.process_priority ++
        [java.binary ++ " " ++ String.intercalate " " tokens]⟩
  ∧ (∀ (path_var folder2 : String) (platform2 : PlatformInfo),
      platform2.os_type = .windows →
      (path_var.splitOn ";").find?
        (fun v => str_contains v.toLower "powershell") = some folder2 →
      LaunchArguments.to_async_command ⟨tokens⟩ java opts platform2
        (some path_var) =
        some ⟨pathJoin folder2 "powershell.exe",
          ["-c", java.binary ++ " " ++ String.intercalate " " tokens]⟩) := by
  constructor
  · unfold LaunchArguments.to_async_command
    cases hplat : platform.os_type with
    | windows => exact absurd hplat hos
    | linux => rfl
    | osx => rfl
    | unknown => rfl
  · intro path_var folder2 platform2 hwin hfind
    unfold LaunchArguments.to_async_command
    rw [hwin]
    simp only [hfind]

/-- C8 witness: the amended non-Windows shape at the concrete linux
platform with one embedded-space token. -/
theorem C8_witness :
    LaunchArguments.to_async_command ⟨["a b"]⟩ ⟨"java"⟩ {} linux_platform
      none =
      some ⟨"nice", nice_priority_args ProcessPriority.normal ++
        ["java" ++ " " ++ String.intercalate " " ["a b"]]⟩ :=
  (C8_joined_single_argument ["a b"] ⟨"java"⟩ {} linux_platform none
    (by decide)).1

/-- A successful close-brace scan strictly shortens the remainder. -/
theorem find_close_brace_len : ∀ (l key rem : List Char),
    find_close_brace l = some (key, rem) → rem.length < l.length := by
  intro l
  induction l with
  | nil =>
    intro key rem h
    simp [find_close_brace] at h
  | cons c rest ih =>
    intro key rem h
    by_cases hnl : c = '\n'
    · simp [find_close_brace, hnl] at h
    · by_cases hcb : c = '\x7d'
      · simp [find_close_brace, hnl, hcb] at h
        rw [← h.2]
        simp
      · cases hfc : find_close_brace rest with
        | none => simp [find_close_brace, hnl, hcb, hfc] at h
        | some pr =>
          obtain ⟨k2, r2⟩ := pr
          simp [find_close_brace, hnl, hcb, hfc] at h
          have hlen := ih k2 r2 hfc
          rw [← h.2]
          simp
          omega

/-- On a key free of closing braces and newlines the scan finds exactly the
matching close brace. -/
theorem find_close_brace_clean : ∀ (key suf : List Char),
    (∀ c ∈ key, c ≠ '\x7d' ∧ c ≠ '\n') →
    find_close_brace (key ++ '\x7d' :: suf) = some (key, suf) := by
  intro key
  induction key with
  | nil =>
    intro suf h
    rfl
  | cons c ks ih =>
    intro suf h
    have hc := h c (by simp)
    simp only [List.cons_append, find_close_brace]
    rw [if_neg hc.2, if_neg hc.1]
    simp only [List.append_eq]
    rw [ih suf (fun x hx => h x (by simp [hx]))]

/-- The formatter scan is independent of the fuel, whenever the fuel covers
the input length. -/
theorem format_go_fuel (lookup : String → Option String) :
    ∀ (f1 : Nat) (l : List Char) (f2 : Nat), l.length ≤ f1 →
    l.length ≤ f2 → format_go lookup f1 l = format_go lookup f2 l := by
  intro f1
  induction f1 with
  | zero =>
    intro l f2 h1 h2
    have hl : l = [] := List.length_eq_zero.mp (Nat.le_zero.mp h1)
    subst hl
    cases f2 <;> rfl
  | succ n ih =>
    intro l f2 h1 h2
    cases l with
    | nil => cases f2 <;> rfl
    | cons c1 rest1 =>
      cases rest1 with
      | nil =>
        cases f2 with
        | zero => simp at h2
        | succ m => rfl
      | cons c2 rest =>
        cases f2 with
        | zero => simp at h2
        | succ m =>
          simp only [format_go]
          by_cases hd : c1 = '$' ∧ c2 = '\x7b'
          · rw [if_pos hd, if_pos hd]
            cases hfc : find_close_brace rest with
            | none =>
              dsimp only
              rw [ih (c2 :: rest) m (by simp at h1 ⊢; omega)
                (by simp at h2 ⊢; omega)]
            | some pr =>
              obtain ⟨key, rem⟩ := pr
              have hlen := find_close_brace_len rest key rem hfc
              dsimp only
              rw [ih rem m (by simp at h1; omega) (by simp at h2; omega)]
          · rw [if_neg hd, if_neg hd,
              ih (c2 :: rest) m (by simp at h1 ⊢; omega)
                (by simp at h2 ⊢; omega)]

/-- A dollar-free prefix passes through the formatter unchanged. -/
theorem format_go_dollar_free_head (lookup : String → Option String) :
    ∀ (pre l : List Char) (f : Nat), (∀ c ∈ pre, c ≠ '$') →
    pre.length + l.length ≤ f →
    format_go lookup f (pre ++ l) = pre ++ format_go lookup l.length l := by
  intro pre
  induction pre with
  | nil =>
    intro l f h hf
    simpa using format_go_fuel lookup f l l.length (by simpa using hf)
      le_rfl
  | cons c pre2 ih =>
    intro l f h hf
    have hc : c ≠ '$' := h c (by simp)
    cases f with
    | zero => simp at hf
    | succ n =>
      cases hpl : pre2 ++ l with
      | nil =>
        obtain ⟨hp2, hl⟩ := List.append_eq_nil.mp hpl
        subst hp2
        subst hl
        rfl
      | cons c2 rest2 =>
        show format_go lookup (n + 1) (c :: (pre2 ++ l)) = _
        rw [hpl]
        simp only [format_go]
        rw [if_neg (fun hh => hc hh.1), ← hpl,
          ih l n (fun x hx => h x (by simp [hx])) (by simp at hf; omega)]
        rfl

/-- A placeholder at the head of the input is replaced by its binding (or
the bare key) and scanning resumes after the close brace. -/
theorem format_go_placeholder (lookup : String → Option String)
    (key : String) (suf : List Char) (f : Nat)
    (hkey : ∀ c ∈ key.data, c ≠ '\x7d' ∧ c ≠ '\n')
    (hf : key.data.length + suf.length + 3 ≤ f) :
    format_go lookup f ('$' :: '\x7b' :: (key.data ++ '\x7d' :: suf)) =
      ((lookup key).getD key).data ++ format_go lookup suf.length suf := by
  cases f with
  | zero => simp at hf
  | succ n =>
    simp only [format_go]
    rw [find_close_brace_clean key.data suf hkey]
    dsimp only
    have hmk : String.mk key.data = key := by cases key; rfl
    rw [hmk]
    have hn : suf.length ≤ n := by
      simp at hf
      omega
    rw [format_go_fuel lookup n suf suf.length hn le_rfl]
    simp

/-- C9 (amended): the formatter replaces each placeholder occurrence whose
key is free of closing braces and newlines — a bound key by its value, an
unbound key by the bare key name — with scanning resuming after the close
brace; the claim's concrete vectors hold, but nested placeholders can leave
a literal placeholder in the output. -/
theorem C9_format_substitution (args : List (String × String))
    (key pre suf : String)
    (hkey : ∀ c ∈ key.data, c ≠ '\x7d' ∧ c ≠ '\n')
    (hpre : ∀ c ∈ pre.data, c ≠ '$') :
    format (pre ++ "$\x7b" ++ key ++ "\x7d" ++ suf) args =
      pre ++
        ((args.find? (fun q => q.1 == key)).map (fun q => q.2)).getD key ++
        format suf args
  ∧ format "a $\x7bx\x7d b" [("x", "1")] = "a 1 b"
  ∧ format "$\x7bkey\x7d" [] = "key" := by
  refine ⟨?_, by decide, by decide⟩
  unfold format
  apply String.ext
  have hdata : (pre ++ "$\x7b" ++ key ++ "\x7d" ++ suf).data
      = pre.data ++ ('$' :: '\x7b' :: (key.data ++ '\x7d' :: suf.data)) := by
    simp [String.data_append]
  rw [hdata]
  simp only [String.data_append]
  rw [format_go_dollar_free_head _ pre.data _ _ hpre (by simp)]
  rw [format_go_placeholder _ key suf.data _ hkey (by simp; omega)]
  simp [List.append_assoc]

/-- C9 witness: one bound placeholder between a dollar-free prefix and a
suffix, at the concrete map x to 1. -/
theorem C9_witness :
    format ("a " ++ "$\x7b" ++ "x" ++ "\x7d" ++ " b") [("x", "1")] =
      "a " ++
        (((([("x", "1")]).find? (fun q => q.1 == "x")).map
          (fun q => q.2)).getD "x") ++
        format " b" [("x", "1")] :=
  (C9_format_substitution [("x", "1")] "x" "a " " b" (by decide)
    (by decide)).1

/-- Merging a child-first chain processes the childmost record last. -/
theorem merge_versions_cons (v : Version) (vs : List Version) :
    merge_versions (v :: vs) = merge_step (merge_versions vs) v := by
  unfold merge_versions
  rw [List.reverse_cons, List.foldl_append]
  rfl

/-- Unfolding one link of an override chain. -/
theorem resolve_override_cons {α : Type} (o : Option α)
    (rest : List (Option α)) (dflt : α) :
    resolve_override (o :: rest) dflt = o.getD (resolve_override rest dflt)
    := by
  cases o <;> simp [resolve_override, List.findSome?_cons]

/-- Closed form of the merge loop accumulators over a child-first chain:
every override-when-Some scalar resolves to the childmost present value,
minimumLauncherVersion resolves to the maximum over the chain, and the
token/library lists concatenate root-first (parent entries before child
entries). -/
theorem merge_versions_eq (versions : List Version) :
    merge_versions versions = {
      assets := resolve_override (versions.map (fun v => v.assets)) ""
      minimum_launcher_version := versions.foldr
        (fun v acc => max (v.minimum_launcher_version.getD 0) acc) 0
      game_args := (versions.reverse.map version_game_args).flatten
      jvm_args := (versions.reverse.map version_jvm_args).flatten
      release_time :=
        resolve_override (versions.map (fun v => v.release_time)) ""
      time := resolve_override (versions.map (fun v => v.time)) ""
      version_type := resolve_override (versions.map (fun v => v.type)) ""
      logging := resolve_override (versions.map (fun v => v.logging)) []
      main_class :=
        resolve_override (versions.map (fun v => v.main_class)) ""
      assets_index := resolve_override
        (versions.map (fun v => v.asset_index)) default_asset_index
      java_version := resolve_override
        (versions.map (fun v => v.java_version)) default_java_version
      libraries_raw := (versions.reverse.map version_libraries_raw).flatten
      downloads :=
        resolve_override (versions.map (fun v => v.downloads)) [] } := by
  induction versions with
  | nil => rfl
  | cons v vs ih =>
    rw [merge_versions_cons, ih]
    unfold merge_step
    simp [MergedFields.mk.injEq, List.map_cons, List.reverse_cons,
      List.map_append, List.flatten_append, List.foldr_cons,
      resolve_override_cons]

/-- The inner value-array fold only appends to its accumulator. -/
theorem value_append_shift (values : List Json) : ∀ acc : String,
    values.foldlM value_append_step acc =
      (values.foldlM value_append_step "").map (fun s2 => acc ++ s2) := by
  induction values with
  | nil =>
    intro acc
    simp [String.append_empty]
  | cons x xs ih =>
    intro acc
    rw [List.foldlM_cons, List.foldlM_cons]
    cases hx : x.as_str with
    | none => simp [value_append_step, hx]
    | some s =>
      rw [show value_append_step acc x = some (acc ++ s ++ " ") by
          simp [value_append_step, hx],
        show value_append_step "" x = some ("" ++ s ++ " ") by
          simp [value_append_step, hx]]
      simp only [Option.bind_eq_bind, Option.some_bind]
      rw [ih (acc ++ s ++ " "), ih ("" ++ s ++ " ")]
      cases xs.foldlM value_append_step "" <;>
        simp [String.empty_append, String.append_assoc]

/-- One resolve_arguments iteration only appends to its accumulator. -/
theorem resolve_arguments_step_shape (compile : RegexOracle)
    (p : PlatformInfo) (arg : Json) (acc : String) :
    resolve_arguments_step compile p acc arg =
      (resolve_arguments_step compile p "" arg).map
        (fun s2 => acc ++ s2) := by
  simp only [resolve_arguments_step]
  split
  · simp [String.empty_append, String.append_assoc]
  · split
    · simp [String.append_empty]
    · split
      · rfl
      · simp [String.append_empty]
      · split
        · simp [String.empty_append, String.append_assoc]
        · split
          · exact value_append_shift _ acc
          · simp [String.append_empty]

/-- The resolve_arguments fold only appends to its accumulator. -/
theorem resolve_arguments_shift (compile : RegexOracle) (p : PlatformInfo)
    (argsl : List Json) : ∀ acc : String,
    argsl.foldlM (resolve_arguments_step compile p) acc =
      (argsl.foldlM (resolve_arguments_step compile p) "").map
        (fun s2 => acc ++ s2) := by
  induction argsl with
  | nil =>
    intro acc
    simp [String.append_empty]
  | cons x xs ih =>
    intro acc
    rw [List.foldlM_cons, List.foldlM_cons,
      resolve_arguments_step_shape compile p x acc]
    cases hx : resolve_arguments_step compile p "" x with
    | none => simp
    | some w =>
      simp only [Option.map_some', Option.bind_eq_bind, Option.some_bind]
      rw [ih (acc ++ w), ih w]
      cases xs.foldlM (resolve_arguments_step compile p) "" <;>
        simp [String.append_assoc]

/-- resolve_arguments distributes over concatenation: the tokens of the
second block are appended after those of the first. -/
theorem resolve_arguments_append (compile : RegexOracle) (p : PlatformInfo)
    (xs ys : List Json) :
    resolve_arguments compile p (xs ++ ys) =
      (resolve_arguments compile p xs).bind
        (fun a => (resolve_arguments compile p ys).map
          (fun b2 => a ++ b2)) := by
  unfold resolve_arguments
  rw [List.foldlM_append]
  cases hx : xs.foldlM (resolve_arguments_step compile p) "" with
  | none => simp
  | some a =>
    simp only [Option.bind_eq_bind, Option.some_bind]
    exact resolve_arguments_shift compile p ys a

/-- One resolve_libraries iteration only appends to its accumulator. -/
theorem resolve_libraries_step_shape (compile : RegexOracle)
    (p : PlatformInfo) (lib : Json) (acc : List Artifact) :
    resolve_libraries_step compile p acc lib =
      (resolve_libraries_step compile p [] lib).map
        (fun l2 => acc ++ l2) := by
  simp only [resolve_libraries_step]
  split
  · rfl
  · simp
  · split
    · split
      · rfl
      · simp
    · split
      · simp
      · split <;> simp

/-- The resolve_libraries fold only appends to its accumulator. -/
theorem resolve_libraries_shift (compile : RegexOracle) (p : PlatformInfo)
    (libs : List Json) : ∀ acc : List Artifact,
    libs.foldlM (resolve_libraries_step compile p) acc =
      (libs.foldlM (resolve_libraries_step compile p) []).map
        (fun l2 => acc ++ l2) := by
  induction libs with
  | nil =>
    intro acc
    simp
  | cons x xs ih =>
    intro acc
    rw [List.foldlM_cons, List.foldlM_cons,
      resolve_libraries_step_shape compile p x acc]
    cases hx : resolve_libraries_step compile p [] x with
    | none => simp
    | some w =>
      simp only [Option.map_some', Option.bind_eq_bind, Option.some_bind]
      rw [ih (acc ++ w), ih w]
      cases xs.foldlM (resolve_libraries_step compile p) [] <;> simp

/-- resolve_libraries distributes over concatenation: the artifacts of the
second block are appended after those of the first, in order. -/
theorem resolve_libraries_append (compile : RegexOracle) (p : PlatformInfo)
    (xs ys : List Json) :
    resolve_libraries compile p (xs ++ ys) =
      (resolve_libraries compile p xs).bind
        (fun a => (resolve_libraries compile p ys).map
          (fun b2 => a ++ b2)) := by
  unfold resolve_libraries
  rw [List.foldlM_append]
  cases hx : xs.foldlM (resolve_libraries_step compile p) [] with
  | none => simp
  | some a =>
    simp only [Option.bind_eq_bind, Option.some_bind]
    exact resolve_libraries_shift compile p ys a

/-- C2 (amended): the merge over a loaded chain is root-first — child
game/jvm tokens and library entries are appended after parent ones (and the
resolvers distribute over that concatenation, keeping the order), and each
of mainClass, assets, releaseTime, time, type, assetIndex, javaVersion
(and the wholesale downloads/logging maps) resolves to the childmost
present value; minimumLauncherVersion however resolves to the maximum of
the values present anywhere in the chain (absent entries counting 0), so a
child value does not override a larger parent value; the resolved version
returned by a successful parse carries the merged mainClass, timestamps,
type, minimumLauncherVersion, resolved libraries and resolved arguments. -/
theorem C2_merge_root_first (compile : RegexOracle) (p : PlatformInfo)
    (versions : List Version) (xs ys : List Json) (self : Version)
    (mc : MinecraftLocation) (folder : VersionsFolder) (fuel : Nat)
    (vs2 : List Version) (inh pc : List String) (r : ResolvedVersion)
    (hload : load_inheritance folder mc self.inherits_from [self] [] [] fuel
      = .ok vs2 inh pc)
    (hparse : Version.parse self mc folder compile p fuel = .ok r) :
    merge_versions versions = {
      assets := resolve_override (versions.map (fun v => v.assets)) ""
      minimum_launcher_version := versions.foldr
        (fun v acc => max (v.minimum_launcher_version.getD 0) acc) 0
      game_args := (versions.reverse.map version_game_args).flatten
      jvm_args := (versions.reverse.map version_jvm_args).flatten
      release_time :=
        resolve_override (versions.map (fun v => v.release_time)) ""
      time := resolve_override (versions.map (fun v => v.time)) ""
      version_type := resolve_override (versions.map (fun v => v.type)) ""
      logging := resolve_override (versions.map (fun v => v.logging)) []
      main_class :=
        resolve_override (versions.map (fun v => v.main_class)) ""
      assets_index := resolve_override
        (versions.map (fun v => v.asset_index)) default_asset_index
      java_version := resolve_override
        (versions.map (fun v => v.java_version)) default_java_version
      libraries_raw := (versions.reverse.map version_libraries_raw).flatten
      downloads :=
        resolve_override (versions.map (fun v => v.downloads)) [] }
  ∧ resolve_libraries compile p (xs ++ ys) =
      (resolve_libraries compile p xs).bind
        (fun a => (resolve_libraries compile p ys).map
          (fun b2 => a ++ b2))
  ∧ resolve_arguments compile p (xs ++ ys) =
      (resolve_arguments compile p xs).bind
        (fun a => (resolve_arguments compile p ys).map
          (fun b2 => a ++ b2))
  ∧ r.main_class = (merge_versions vs2).main_class
  ∧ r.release_time = (merge_versions vs2).release_time
  ∧ r.time = (merge_versions vs2).time
  ∧ r.version_type = (merge_versions vs2).version_type
  ∧ r.minimum_launcher_version =
      (merge_versions vs2).minimum_launcher_version
  ∧ r.libraries =
      (resolve_libraries compile p (merge_versions vs2).libraries_raw).getD
        []
  ∧ r.arguments = some
      ⟨(resolve_arguments compile p (merge_versions vs2).game_args).getD "",
       (resolve_arguments compile p (merge_versions vs2).jvm_args).getD
        ""⟩ := by
  refine ⟨merge_versions_eq versions,
    resolve_libraries_append compile p xs ys,
    resolve_arguments_append compile p xs ys, ?_⟩
  unfold Version.parse at hparse
  rw [hload] at hparse
  dsimp only at hparse
  split at hparse
  · exact absurd hparse (by simp)
  · split at hparse
    · rename_i game jvm libs hg hj hl
      rw [ParseResult.ok.injEq] at hparse
      subst hparse
      exact ⟨rfl, rfl, rfl, rfl, rfl, by rw [hl]; rfl,
        by rw [hg, hj]; rfl⟩
    · exact absurd hparse (by simp)

/-- C2 witness: the min1 child over the min5 parent, where the resolved
minimumLauncherVersion is the chain maximum and the resolved mainClass is
the childmost value. -/
theorem C2_witness :
    c2_resolved.main_class =
      (merge_versions [min1_child, min5_parent]).main_class
  ∧ c2_resolved.minimum_launcher_version =
      (merge_versions [min1_child, min5_parent]).minimum_launcher_version
  ∧ c2_resolved.libraries =
      (resolve_libraries no_regex linux_platform
        (merge_versions [min1_child, min5_parent]).libraries_raw).getD []
    := by
  have h := C2_merge_root_first no_regex linux_platform
    [min1_child, min5_parent] [] [] min1_child test_location min5_folder 2
    [min1_child, min5_parent] ["p"] ["test/versions/p/p.json"] c2_resolved
    rfl (by decide)
  exact ⟨h.2.2.2.1, h.2.2.2.2.2.2.2.1, h.2.2.2.2.2.2.2.2.1⟩

end MglCore
